import Mathlib

/-!
Shallow embedding of the jira-mcp-snowflake repository (Python sources:
`database.py`, `tools.py` and the newer `src/tools.py`), together with
theorems settling the frozen claims about its specification.

Python scalar runtime values are modelled by `Value` (null, string, int);
Python dicts keyed by column-name strings are modelled by insertion-ordered
association lists, which reproduces dict insertion order and overwrite
semantics for the distinct-key column layouts used by the source.
-/

/-- Model of the Python scalar values flowing through this program:
`None`, `str` and `int`. -/
inductive Value where
  | vNull
  | vStr (s : String)
  | vInt (n : Int)
deriving DecidableEq, Repr

/-- Python `str(v)` on the modelled scalar values. -/
def pyStr : Value → String
  | .vNull => "None"
  | .vStr s => s
  | .vInt n => toString n

/-- Python truthiness of the modelled scalar values. -/
def truthy : Value → Bool
  | .vNull => false
  | .vStr s => !(s == "")
  | .vInt n => !(n == 0)

section AssocList

variable {α β : Type} [DecidableEq α]

/-- Lookup in an insertion-ordered association list (first binding wins;
the source only builds dicts with distinct keys, where this agrees with
Python dict lookup). -/
def alGet : List (α × β) → α → Option β
  | [], _ => none
  | (k0, v0) :: rest, k => if k0 = k then some v0 else alGet rest k

/-- Lookup with a default, modelling Python `dict.get(k, d)`. -/
def alGetD (l : List (α × β)) (k : α) (d : β) : β :=
  (alGet l k).getD d

/-- Upsert modelling Python `d[k] = v`: overwrite in place if the key is
present (keeping its position, as Python dicts do), else append. -/
def alSet : List (α × β) → α → β → List (α × β)
  | [], k, v => [(k, v)]
  | (k0, v0) :: rest, k, v =>
    if k0 = k then (k0, v) :: rest else (k0, v0) :: alSet rest k v

/-- Update the value at a key in place, modelling mutation of an entry
that is known to be present. -/
def alUpdate : List (α × β) → α → (β → β) → List (α × β)
  | [], _, _ => []
  | (k0, v0) :: rest, k, f =>
    if k0 = k then (k0, f v0) :: rest else (k0, v0) :: alUpdate rest k f

/-- Key sequence of an association list, in insertion order. -/
def alKeys (l : List (α × β)) : List α := l.map Prod.fst

theorem alGet_isSome_iff_mem (l : List (α × β)) (k : α) :
    (alGet l k).isSome = true ↔ k ∈ alKeys l := by
  induction l with
  | nil => simp [alGet, alKeys]
  | cons p rest ih =>
    obtain ⟨k0, v0⟩ := p
    by_cases h : k0 = k
    · subst h; simp [alGet, alKeys]
    · simp [alGet, alKeys, h, ih, Ne.symm h]

theorem alGet_alSet_self (l : List (α × β)) (k : α) (v : β) :
    alGet (alSet l k v) k = some v := by
  induction l with
  | nil => simp [alSet, alGet]
  | cons p rest ih =>
    obtain ⟨k0, v0⟩ := p
    by_cases h : k0 = k
    · simp [alSet, alGet, h]
    · simp [alSet, alGet, h, ih]

theorem alGet_alSet_ne (l : List (α × β)) (k k' : α) (v : β) (h : k ≠ k') :
    alGet (alSet l k v) k' = alGet l k' := by
  induction l with
  | nil => simp [alSet, alGet, h]
  | cons p rest ih =>
    obtain ⟨k0, v0⟩ := p
    by_cases h0 : k0 = k
    · subst h0; simp [alSet, alGet, h]
    · simp [alSet, alGet, h0, ih]

theorem alKeys_alSet (l : List (α × β)) (k : α) (v : β) :
    alKeys (alSet l k v) =
      if k ∈ alKeys l then alKeys l else alKeys l ++ [k] := by
  induction l with
  | nil => simp [alSet, alKeys]
  | cons p rest ih =>
    obtain ⟨k0, v0⟩ := p
    by_cases h : k0 = k
    · subst h; simp [alSet, alKeys]
    · have hne : ¬ k = k0 := fun hk => h hk.symm
      simp only [alSet, if_neg h, alKeys, List.map_cons]
      simp only [alKeys] at ih
      rw [ih]
      simp only [List.mem_cons, hne, false_or]
      by_cases hm : k ∈ List.map Prod.fst rest
      · simp [hm]
      · simp [hm]

theorem alKeys_alUpdate (l : List (α × β)) (k : α) (f : β → β) :
    alKeys (alUpdate l k f) = alKeys l := by
  induction l with
  | nil => simp [alUpdate]
  | cons p rest ih =>
    obtain ⟨k0, v0⟩ := p
    by_cases h : k0 = k
    · simp [alUpdate, alKeys, h]
    · simp [alUpdate, alKeys, h]
      rw [alKeys] at ih
      exact ih

theorem alGet_alUpdate_self (l : List (α × β)) (k : α) (f : β → β) :
    alGet (alUpdate l k f) k = (alGet l k).map f := by
  induction l with
  | nil => simp [alUpdate, alGet]
  | cons p rest ih =>
    obtain ⟨k0, v0⟩ := p
    by_cases h : k0 = k
    · simp [alUpdate, alGet, h]
    · simp [alUpdate, alGet, h, ih]

theorem alGet_alUpdate_ne (l : List (α × β)) (k k' : α) (f : β → β) (h : k ≠ k') :
    alGet (alUpdate l k f) k' = alGet l k' := by
  induction l with
  | nil => simp [alUpdate]
  | cons p rest ih =>
    obtain ⟨k0, v0⟩ := p
    by_cases h0 : k0 = k
    · subst h0; simp [alUpdate, alGet, h]
    · simp [alUpdate, alGet, h0, ih]

theorem alGet_append (l l' : List (α × β)) (k : α) :
    alGet (l ++ l') k =
      match alGet l k with
      | some v => some v
      | none => alGet l' k := by
  induction l with
  | nil => simp [alGet]
  | cons p rest ih =>
    obtain ⟨k0, v0⟩ := p
    by_cases h : k0 = k
    · simp [alGet, h]
    · simp [alGet, h, ih]

theorem mem_alUpdate (l : List (α × β)) (k : α) (f : β → β) (p : α × β)
    (hp : p ∈ alUpdate l k f) :
    p ∈ l ∨ ∃ q ∈ l, p = (q.1, f q.2) := by
  induction l with
  | nil => simp [alUpdate] at hp
  | cons q rest ih =>
    obtain ⟨k0, v0⟩ := q
    by_cases h : k0 = k
    · rw [alUpdate, if_pos h, List.mem_cons] at hp
      rcases hp with hp | hp
      · exact Or.inr ⟨(k0, v0), List.mem_cons_self _ _, hp⟩
      · exact Or.inl (List.mem_cons_of_mem _ hp)
    · rw [alUpdate, if_neg h, List.mem_cons] at hp
      rcases hp with hp | hp
      · exact Or.inl (hp ▸ List.mem_cons_self _ _)
      · rcases ih hp with h1 | ⟨q2, hq, he⟩
        · exact Or.inl (List.mem_cons_of_mem _ h1)
        · exact Or.inr ⟨q2, List.mem_cons_of_mem _ hq, he⟩

end AssocList

/-- A Python dict keyed by column-name strings. -/
abbrev RowDict := List (String × Value)

/-- Optional lookup in a row dict; `none` means the key is absent. -/
def dgetOpt (d : RowDict) (k : String) : Option Value := alGet d k

/-- Python `row_dict.get(k)`: `None` both when the key is absent and when
the stored value is `None` is modelled by collapsing absence to `vNull`
only where the source itself treats them alike; here absence maps to
`vNull`, matching `dict.get`'s default of `None`. -/
def dget (d : RowDict) (k : String) : Value :=
  (dgetOpt d k).getD .vNull

/-- Python `row_dict.get(k, default)`: the default applies only when the
key is absent, not when the stored value is `None`. -/
def dgetD (d : RowDict) (k : String) (dflt : Value) : Value :=
  (dgetOpt d k).getD dflt

/-- Embedding of `database.format_snowflake_row`: a row whose value count
differs from the declared column count yields the empty dict, otherwise
each column name maps to the value at its position. -/
def format_snowflake_row (row_data : List Value) (columns : List String) : RowDict :=
  if row_data.length = columns.length then columns.zip row_data else []

/-- The single-quote character, written via its code point. -/
def squote : Char := Char.ofNat 39

/-- Fuel-indexed model of Python `str.replace(pat, rep)` over character
lists: scan left to right, replacing each leftmost non-overlapping
occurrence of `pat`. The fuel only serves termination; with fuel at least
the length of the string and a non-empty pattern it is never exhausted. -/
def py_replace_fuel : Nat → List Char → List Char → List Char → List Char
  | 0, s, _, _ => s
  | _ + 1, [], _, _ => []
  | fuel + 1, c :: cs, pat, rep =>
    if pat ≠ [] ∧ pat.isPrefixOf (c :: cs) then
      rep ++ py_replace_fuel fuel ((c :: cs).drop pat.length) pat rep
    else
      c :: py_replace_fuel fuel cs pat rep

/-- Python `s.replace(pat, rep)` on character lists. -/
def py_replace (s pat rep : List Char) : List Char :=
  py_replace_fuel s.length s pat rep

/-- Embedding of `database.sanitize_sql_value`: for a string, replace
every single quote with two single quotes (Python
`value.replace("'", "''")`); any other value is stringified. The function
is total, mirroring the source's never-raises behavior. -/
def sanitize_sql_value : Value → String
  | .vStr s => String.mk (py_replace s.data [squote] [squote, squote])
  | v => pyStr v

/-- The character-map the spec attributes to the sanitizer: every single
quote doubled, every other character kept unchanged in place. -/
def quoteExpand : List Char → List Char
  | [] => []
  | c :: cs => (if c = squote then [squote, squote] else [c]) ++ quoteExpand cs

theorem py_replace_fuel_quote (fuel : Nat) (s : List Char) (h : s.length ≤ fuel) :
    py_replace_fuel fuel s [squote] [squote, squote] = quoteExpand s := by
  induction fuel generalizing s with
  | zero =>
    have : s = [] := List.length_eq_zero.mp (Nat.le_zero.mp h)
    subst this; rfl
  | succ n ih =>
    cases s with
    | nil => rfl
    | cons c cs =>
      by_cases hc : c = squote
      · subst hc
        have hpre : [squote].isPrefixOf (squote :: cs) := by
          simp [List.isPrefixOf]
        rw [py_replace_fuel, if_pos ⟨by simp, hpre⟩]
        simp only [List.length_cons] at h
        simp only [List.length_singleton, List.drop_one, List.tail_cons]
        rw [ih cs (Nat.le_of_succ_le_succ h)]
        simp [quoteExpand]
      · rw [py_replace_fuel, if_neg]
        · simp only [List.length_cons] at h
          rw [ih cs (Nat.le_of_succ_le_succ h)]
          simp [quoteExpand, hc]
        · rintro ⟨-, hpb⟩
          have hq : squote = c := by
            simp [List.isPrefixOf] at hpb
            exact hpb
          exact hc hq.symm

theorem quoteExpand_eq_flatMap (s : List Char) :
    quoteExpand s = s.flatMap (fun c => if c = squote then [squote, squote] else [c]) := by
  induction s with
  | nil => rfl
  | cons c cs ih => simp [quoteExpand, ih]

/-- Outcome of one HTTP round trip to the Snowflake statements endpoint, as
seen by `database.execute_snowflake_query`. `failure` covers every path on
which `make_snowflake_request` returns `None`: missing token at the request
layer, an HTTP error status, a transport exception, or an unparseable JSON
body (`database.py` lines 41-76). The `ok` constructors distinguish the
response shapes lines 103-117 inspect. -/
inductive ApiResp where
  | failure
  | withData (rows : List (List Value))
  | withResultSet (rows : List (List Value))
  | withResultSetNoData
  | other
deriving DecidableEq, Repr

/-- Embedding of `database.execute_snowflake_query` (lines 78-124): every
failure mode of the request layer, and every response without recognisable
data, collapses to the empty row list; the function never raises. -/
def execute_snowflake_query : ApiResp → List (List Value)
  | .failure => []
  | .withData rows => rows
  | .withResultSet rows => rows
  | .withResultSetNoData => []
  | .other => []

/-- Embedding of `database.make_snowflake_request`'s token guard (lines
35-43): with a missing or empty `SNOWFLAKE_TOKEN` the request layer returns
`None` before any HTTP call, which downstream is the same `failure` outcome. -/
def tokenFalsy : Option String → Bool
  | none => true
  | some s => s == ""

/-- Effective API outcome of the legacy request layer given the environment
token: a falsy token forces the failure path regardless of the network. -/
def make_snowflake_request (tokenEnv : Option String) (api : ApiResp) : ApiResp :=
  if tokenFalsy tokenEnv then .failure else api

/-- Python `str.split` specialised to the two-character separator used by
the source (the component-name delimiter token, two vertical bars written
via its code point), leftmost non-overlapping matches. -/
def vbar : Char := Char.ofNat 124

/-- Split a character list on the two-character separator `vbar,vbar`. -/
def splitBars : List Char → List Char → List (List Char)
  | [], cur => [cur.reverse]
  | [c], cur => [(c :: cur).reverse]
  | b1 :: b2 :: rest, cur =>
    if b1 = vbar ∧ b2 = vbar then cur.reverse :: splitBars rest []
    else splitBars (b2 :: rest) (b1 :: cur)

/-- Python `str.strip()` on the ASCII whitespace the modelled strings use. -/
def pyStrip (s : String) : String :=
  String.mk (((s.data.dropWhile Char.isWhitespace).reverse.dropWhile Char.isWhitespace).reverse)

/-- Embedding of the component-name list comprehension in `src/tools.py`
line 254: split the aggregated string on the delimiter, keep entries that
are non-empty before and after stripping, and strip the survivors. -/
def splitCompNames (s : String) : List String :=
  (((splitBars s.data []).map String.mk).filter
    (fun n => !(n == "") && !(pyStrip n == ""))).map pyStrip

/-- Embedding of the unique-append loop in `src/tools.py` lines 254-256:
append each name not already present, preserving order. -/
def addCompNames (comps : List String) (names : List String) : List String :=
  names.foldl (fun acc n => if n ∈ acc then acc else acc ++ [n]) comps

theorem addCompNames_nodup (names : List String) (comps : List String)
    (h : comps.Nodup) : (addCompNames comps names).Nodup := by
  induction names generalizing comps with
  | nil => exact h
  | cons n rest ih =>
    rw [addCompNames, List.foldl_cons]
    by_cases hm : n ∈ comps
    · rw [if_pos hm]; exact ih comps h
    · rw [if_neg hm]
      exact ih (comps ++ [n]) (by simp [List.nodup_append, h, hm])

theorem addCompNames_sublist (names : List String) (comps : List String) :
    comps.Sublist (addCompNames comps names) := by
  induction names generalizing comps with
  | nil => exact List.Sublist.refl comps
  | cons n rest ih =>
    rw [addCompNames, List.foldl_cons]
    by_cases hm : n ∈ comps
    · rw [if_pos hm]; exact ih comps
    · rw [if_neg hm]
      exact List.Sublist.trans (by simp) (ih (comps ++ [n]))

/-- Python `x or y` on scalar values: `x` when truthy, else `y`. -/
def pyOr (x y : Value) : Value :=
  if truthy x then x else y

/-- Column layout of the list query, `src/tools.py` lines 203-209. -/
def listColumns : List String :=
  ["ID", "ISSUE_KEY", "PROJECT", "ISSUENUM", "ISSUETYPE", "SUMMARY",
   "DESCRIPTION_TRUNCATED", "DESCRIPTION", "PRIORITY", "ISSUESTATUS",
   "RESOLUTION", "CREATED", "UPDATED", "DUEDATE", "RESOLUTIONDATE",
   "VOTES", "WATCHES", "ENVIRONMENT", "COMPONENT", "FIXFOR",
   "COMPONENT_NAMES"]

/-- One aggregated list-view issue record, `src/tools.py` lines 223-246. -/
structure Issue where
  id : Value
  key : Value
  project : Value
  issue_number : Value
  issue_type : Value
  summary : Value
  description : Value
  priority : Value
  status : Value
  resolution : Value
  created : Value
  updated : Value
  due_date : Value
  resolution_date : Value
  votes : Value
  watches : Value
  environment : Value
  component : List String
  fix_version : Value
  component_name : Value
deriving DecidableEq, Repr

/-- Fresh record materialised for a first-seen issue id, `src/tools.py`
lines 223-246: components start empty and the representative
`component_name` starts as `None`. -/
def mkListIssue (d : RowDict) : Issue where
  id := dget d "ID"
  key := dget d "ISSUE_KEY"
  project := dget d "PROJECT"
  issue_number := dget d "ISSUENUM"
  issue_type := dget d "ISSUETYPE"
  summary := dget d "SUMMARY"
  description := pyOr (dget d "DESCRIPTION_TRUNCATED") (.vStr "")
  priority := dget d "PRIORITY"
  status := dget d "ISSUESTATUS"
  resolution := dget d "RESOLUTION"
  created := dget d "CREATED"
  updated := dget d "UPDATED"
  due_date := dget d "DUEDATE"
  resolution_date := dget d "RESOLUTIONDATE"
  votes := dget d "VOTES"
  watches := dget d "WATCHES"
  environment := dget d "ENVIRONMENT"
  component := []
  fix_version := dget d "FIXFOR"
  component_name := .vNull

/-- The Python expression `row_dict.get("COMPONENT_NAMES") or ""` followed
by the string operations on the result: a falsy value degrades to the empty
string, a truthy string is used as is, and a truthy non-string would raise
a `TypeError` at `.split`, modelled as `none`. -/
def compStringOf : Value → Option String
  | .vStr s => some (if s == "" then "" else s)
  | .vNull => some ""
  | .vInt n => if n == 0 then some "" else none

/-- Aggregation state of the list operation: the insertion-ordered dict of
issues keyed by stringified id, plus the id list collected for enrichment. -/
structure AggState where
  issues_by_id : List (String × Issue)
  issue_ids : List String
deriving DecidableEq, Repr

/-- The empty aggregation state, `src/tools.py` lines 199-200. -/
def initAggState : AggState := ⟨[], []⟩

/-- Component merge applied to an existing record, `src/tools.py` lines
252-258: append each split name not already present, then refresh the
representative `component_name` to the first entry (or `None`). -/
def aggMergeComps (names : List String) (r0 : Issue) : Issue :=
  let comps := addCompNames r0.component names
  { r0 with
      component := comps,
      component_name := match comps with
        | [] => .vNull
        | c :: _ => .vStr c }

/-- Component aggregation of one row into the state that already holds an
entry for `iid` (`src/tools.py` lines 249-258). -/
def aggStepComp (st1 : AggState) (d : RowDict) (iid : String) : Option AggState :=
  match compStringOf (dget d "COMPONENT_NAMES") with
  | none => none
  | some s =>
    if s == "" then some st1
    else some ⟨alUpdate st1.issues_by_id iid (aggMergeComps (splitCompNames s)),
               st1.issue_ids⟩

/-- Body of the loop iteration once the stringified primary id `iid` is in
hand (the part of `src/tools.py` lines 219-258 after the null-id guard). -/
def aggStepId (st : AggState) (d : RowDict) (iid : String) : Option AggState :=
  aggStepComp
    (if (alGet st.issues_by_id iid).isSome then st
     else ⟨st.issues_by_id ++ [(iid, mkListIssue d)], st.issue_ids ++ [iid]⟩)
    d iid

/-- Embedding of one iteration of the aggregation loop in `src/tools.py`
lines 211-258. Null or absent primary id skips the row; a first-seen id
materialises a fresh record and is appended to the id list; every row then
merges its pre-aggregated component-name string into the record. `none`
models the `TypeError` a truthy non-string `COMPONENT_NAMES` value would
raise (propagating to the operation's generic exception handler). -/
def aggStep (st : AggState) (row : List Value) : Option AggState :=
  let d := format_snowflake_row row listColumns
  match dgetOpt d "ID" with
  | none => some st
  | some .vNull => some st
  | some idv => aggStepId st d (pyStr idv)

/-- The aggregation loop over all returned rows. -/
def aggLoop : AggState → List (List Value) → Option AggState
  | st, [] => some st
  | st, r :: rs =>
    match aggStep st r with
    | none => none
    | some st1 => aggLoop st1 rs

/-- The primary id a row contributes, exactly as the aggregation loop
extracts it: `none` when the formatted row has no `ID` key or a null id. -/
def rowIdOf (row : List Value) : Option String :=
  match dgetOpt (format_snowflake_row row listColumns) "ID" with
  | none => none
  | some .vNull => none
  | some v => some (pyStr v)

/-- First-seen deduplication fold: append each id not yet present. -/
def firstSeenFold (init : List String) (ids : List String) : List String :=
  ids.foldl (fun acc x => if x ∈ acc then acc else acc ++ [x]) init

/-- Invariant of the aggregation state: the dict's key sequence is exactly
the collected id list, and every record's component list is duplicate-free. -/
def AggInv (st : AggState) : Prop :=
  st.issues_by_id.map Prod.fst = st.issue_ids ∧
  ∀ p ∈ st.issues_by_id, p.2.component.Nodup

theorem firstSeenFold_eq_addCompNames (init l : List String) :
    firstSeenFold init l = addCompNames init l := rfl

theorem aggStepComp_spec (st1 : AggState) (d : RowDict) (iid : String)
    (st' : AggState) (hstep : aggStepComp st1 d iid = some st')
    (hinv : AggInv st1) :
    AggInv st' ∧ st'.issue_ids = st1.issue_ids := by
  obtain ⟨hkeys, hcomp⟩ := hinv
  rw [aggStepComp] at hstep
  split at hstep
  · exact absurd hstep (by simp)
  · split at hstep
    · cases hstep
      exact ⟨⟨hkeys, hcomp⟩, rfl⟩
    · cases hstep
      rename_i s hcs hs
      refine ⟨⟨?_, ?_⟩, rfl⟩
      · have h1 := alKeys_alUpdate st1.issues_by_id iid
          (aggMergeComps (splitCompNames s))
        simp only [alKeys] at h1
        simpa [h1] using hkeys
      · intro p hp
        rcases mem_alUpdate _ _ _ _ hp with h1 | ⟨q, hq, rfl⟩
        · exact hcomp p h1
        · simpa [aggMergeComps] using
            addCompNames_nodup (splitCompNames s) q.2.component (hcomp q hq)

theorem aggStepId_spec (st : AggState) (d : RowDict) (iid : String)
    (st' : AggState) (hstep : aggStepId st d iid = some st')
    (hinv : AggInv st) :
    AggInv st' ∧ st'.issue_ids =
      (if iid ∈ st.issue_ids then st.issue_ids else st.issue_ids ++ [iid]) := by
  obtain ⟨hkeys, hcomp⟩ := hinv
  have hmem : (alGet st.issues_by_id iid).isSome = true ↔ iid ∈ st.issue_ids := by
    rw [alGet_isSome_iff_mem, alKeys, hkeys]
  rw [aggStepId] at hstep
  by_cases hp : (alGet st.issues_by_id iid).isSome = true
  · rw [if_pos hp] at hstep
    rw [if_pos (hmem.mp hp)]
    exact aggStepComp_spec st d iid st' hstep ⟨hkeys, hcomp⟩
  · rw [if_neg hp] at hstep
    have hnotin : iid ∉ st.issue_ids := fun h => hp (hmem.mpr h)
    rw [if_neg hnotin]
    have hinv1 : AggInv ⟨st.issues_by_id ++ [(iid, mkListIssue d)],
        st.issue_ids ++ [iid]⟩ := by
      constructor
      · simp [hkeys]
      · intro p hpm
        rcases List.mem_append.mp hpm with h1 | h1
        · exact hcomp p h1
        · have : p = (iid, mkListIssue d) := by simpa using h1
          subst this
          simp [mkListIssue]
    exact aggStepComp_spec _ d iid st' hstep hinv1

theorem aggStep_spec (st : AggState) (row : List Value) (st' : AggState)
    (hstep : aggStep st row = some st') (hinv : AggInv st) :
    AggInv st' ∧ st'.issue_ids =
      (match rowIdOf row with
        | none => st.issue_ids
        | some iid =>
          if iid ∈ st.issue_ids then st.issue_ids else st.issue_ids ++ [iid]) := by
  rw [aggStep] at hstep
  rw [rowIdOf]
  rcases hid : dgetOpt (format_snowflake_row row listColumns) "ID" with _ | idv
  · rw [hid] at hstep
    simp at hstep
    subst hstep
    exact ⟨hinv, rfl⟩
  · rw [hid] at hstep
    cases idv with
    | vNull =>
      simp at hstep
      subst hstep
      exact ⟨hinv, rfl⟩
    | vStr s => exact aggStepId_spec st _ _ st' hstep hinv
    | vInt n => exact aggStepId_spec st _ _ st' hstep hinv

theorem aggLoop_spec (rows : List (List Value)) (st st' : AggState)
    (hinv : AggInv st) (hloop : aggLoop st rows = some st') :
    AggInv st' ∧
    st'.issue_ids = firstSeenFold st.issue_ids (rows.filterMap rowIdOf) := by
  induction rows generalizing st with
  | nil =>
    rw [aggLoop] at hloop
    cases hloop
    exact ⟨hinv, rfl⟩
  | cons r rs ih =>
    rw [aggLoop] at hloop
    rcases hs : aggStep st r with _ | st1
    · rw [hs] at hloop; exact absurd hloop (by simp)
    · rw [hs] at hloop
      obtain ⟨hinv1, hids1⟩ := aggStep_spec st r st1 hs hinv
      obtain ⟨hinv2, hids2⟩ := ih st1 hinv1 hloop
      refine ⟨hinv2, ?_⟩
      rw [hids2, hids1]
      rcases hr : rowIdOf r with _ | iid
      · simp [List.filterMap_cons, hr]
      · simp [List.filterMap_cons, hr, firstSeenFold]

/-- Shared tail of the date fragments: the interpolated day count followed
by the rest of the `DATEADD` call. -/
def dateaddTail (n : Int) : String := toString n ++ ", CURRENT_TIMESTAMP())"

/-- Fragment from `created_days`, `src/tools.py` line 144. -/
def createdFrag (n : Int) : String :=
  "i.CREATED >= DATEADD(DAY, -" ++ dateaddTail n

/-- Fragment from `updated_days`, `src/tools.py` line 147. -/
def updatedFrag (n : Int) : String :=
  "i.UPDATED >= DATEADD(DAY, -" ++ dateaddTail n

/-- Fragment from `resolved_days`, `src/tools.py` line 150. -/
def resolvedFrag (n : Int) : String :=
  "i.RESOLUTIONDATE >= DATEADD(DAY, -" ++ dateaddTail n

/-- Fragment from `timeframe`, `src/tools.py` line 155: created OR updated
OR resolved within the window, as one parenthesised disjunction. -/
def timeframeFrag (n : Int) : String :=
  "(" ++ createdFrag n ++ " OR " ++ updatedFrag n ++ " OR " ++ resolvedFrag n ++ ")"

/-- Embedding of the `date_conditions` accumulation, `src/tools.py` lines
140-150: one fragment per strictly positive specific day-count filter, in
created/updated/resolved order. -/
def date_conditions (c u r : Int) : List String :=
  (if c > 0 then [createdFrag c] else []) ++
  (if u > 0 then [updatedFrag u] else []) ++
  (if r > 0 then [resolvedFrag r] else [])

/-- Embedding of lines 152-160: the timeframe fragment is appended to the
conjunctive condition list only when `timeframe > 0` and no specific date
condition was built, then all specific date conditions are appended. The
surrounding operation later joins every fragment of the condition list
with `AND` (line 164). -/
def date_filter_conditions (c u r t : Int) : List String :=
  (if t > 0 ∧ date_conditions c u r = [] then [timeframeFrag t] else []) ++
  date_conditions c u r

theorem createdFrag_head (n : Int) : (createdFrag n).data.head? = some ('i') := by
  rw [createdFrag, String.data_append]
  rfl

theorem updatedFrag_head (n : Int) : (updatedFrag n).data.head? = some ('i') := by
  rw [updatedFrag, String.data_append]
  rfl

theorem resolvedFrag_head (n : Int) : (resolvedFrag n).data.head? = some ('i') := by
  rw [resolvedFrag, String.data_append]
  rfl

theorem timeframeFrag_head (n : Int) : (timeframeFrag n).data.head? = some ('(') := by
  rw [timeframeFrag, String.data_append, String.data_append, String.data_append,
    String.data_append, String.data_append]
  rfl

theorem timeframeFrag_not_mem_date_conditions (x c u r : Int) :
    timeframeFrag x ∉ date_conditions c u r := by
  intro h
  rw [date_conditions] at h
  have hne : ∀ s : String, s.data.head? = some ('i') → timeframeFrag x ≠ s := by
    intro s hs he
    have h1 : (timeframeFrag x).data.head? = s.data.head? := by rw [he]
    rw [timeframeFrag_head, hs] at h1
    exact absurd h1 (by decide)
  rcases List.mem_append.mp h with h1 | h3
  · rcases List.mem_append.mp h1 with hc | hu
    · by_cases hcc : c > 0
      · rw [if_pos hcc] at hc
        exact hne (createdFrag c) (createdFrag_head c) (by simpa using hc)
      · rw [if_neg hcc] at hc; simp at hc
    · by_cases huu : u > 0
      · rw [if_pos huu] at hu
        exact hne (updatedFrag u) (updatedFrag_head u) (by simpa using hu)
      · rw [if_neg huu] at hu; simp at hu
  · by_cases hrr : r > 0
    · rw [if_pos hrr] at h3
      exact hne (resolvedFrag r) (resolvedFrag_head r) (by simpa using h3)
    · rw [if_neg hrr] at h3; simp at h3

theorem date_conditions_ne_nil (c u r : Int) (h : 0 < c ∨ 0 < u ∨ 0 < r) :
    date_conditions c u r ≠ [] := by
  rw [date_conditions]
  rcases h with h | h | h
  · rw [if_pos h]; simp
  · rw [if_pos h]; simp
  · rw [if_pos h]; simp

/-- C3: specific date filters strictly dominate `timeframe`. Whenever any
of `created_days`, `updated_days`, `resolved_days` is positive, the
condition list the operation builds contains no timeframe fragment for any
timeframe value and equals exactly the specific fragments, one per positive
filter (later AND-joined with the rest of the WHERE clause); only when all
three are non-positive and `timeframe` is positive does a single
created-OR-updated-OR-resolved fragment appear. In particular
`created_days = 5` with `timeframe = 10` yields only the created fragment. -/
theorem date_filters_dominate_timeframe :
    (∀ c u r t : Int, (0 < c ∨ 0 < u ∨ 0 < r) →
      date_filter_conditions c u r t = date_conditions c u r ∧
      ∀ x : Int, timeframeFrag x ∉ date_filter_conditions c u r t) ∧
    (∀ c u r t : Int,
      (0 < c → createdFrag c ∈ date_filter_conditions c u r t) ∧
      (0 < u → updatedFrag u ∈ date_filter_conditions c u r t) ∧
      (0 < r → resolvedFrag r ∈ date_filter_conditions c u r t)) ∧
    (∀ c u r t : Int, c ≤ 0 → u ≤ 0 → r ≤ 0 → 0 < t →
      date_filter_conditions c u r t = [timeframeFrag t]) ∧
    date_filter_conditions 5 0 0 10 = [createdFrag 5] := by
  have hmain : ∀ c u r t : Int, (0 < c ∨ 0 < u ∨ 0 < r) →
      date_filter_conditions c u r t = date_conditions c u r := by
    intro c u r t h
    rw [date_filter_conditions,
      if_neg (fun hct => date_conditions_ne_nil c u r h hct.2)]
    simp
  refine ⟨fun c u r t h => ⟨hmain c u r t h, ?_⟩, ?_, ?_, ?_⟩
  · intro x hx
    rw [hmain c u r t h] at hx
    exact timeframeFrag_not_mem_date_conditions x c u r hx
  · intro c u r t
    refine ⟨fun hc => ?_, fun hu => ?_, fun hr => ?_⟩
    · rw [date_filter_conditions, date_conditions, if_pos hc]
      simp
    · rw [date_filter_conditions, date_conditions, if_pos hu]
      simp
    · rw [date_filter_conditions, date_conditions, if_pos hr]
      simp
  · intro c u r t hc hu hr ht
    have hdc : date_conditions c u r = [] := by
      rw [date_conditions, if_neg (by omega), if_neg (by omega), if_neg (by omega)]
      rfl
    rw [date_filter_conditions, hdc, if_pos ⟨ht, rfl⟩]
    simp
  · rw [hmain 5 0 0 10 (Or.inl (by norm_num))]
    norm_num [date_conditions]

/-- Witness for C3 at the spec's own example input. -/
theorem date_filters_dominate_timeframe_witness :
    ((0:Int) < 5 ∨ (0:Int) < 0 ∨ (0:Int) < 0) ∧
    date_filter_conditions 5 0 0 10 = date_conditions 5 0 0 ∧
    timeframeFrag 10 ∉ date_filter_conditions 5 0 0 10 :=
  ⟨Or.inl (by norm_num),
   (date_filters_dominate_timeframe.1 5 0 0 10 (Or.inl (by norm_num))).1,
   (date_filters_dominate_timeframe.1 5 0 0 10 (Or.inl (by norm_num))).2 10⟩

/-- Python `str.isdigit` as used by the id sanitizer: non-empty and all
decimal digits. -/
def pyIsDigit (s : String) : Bool :=
  !(s.isEmpty) && s.data.all Char.isDigit

/-- Column layout of the labels lookup, `database.py` line 161. -/
def labelsColumns : List String := ["ISSUE", "LABEL"]

/-- One iteration of the labels accumulation loop, `database.py` lines
163-171: stringify the `ISSUE` value, keep the pair only when both the id
string and the label are truthy, then append the label to that id's list
(creating it on first sight). -/
def labelsStep (m : List (String × List Value)) (row : List Value) :
    List (String × List Value) :=
  let d := format_snowflake_row row labelsColumns
  let iid := pyStr (dget d "ISSUE")
  let lab := dget d "LABEL"
  if !(iid == "") && truthy lab then
    match alGet m iid with
    | some ls => alSet m iid (ls ++ [lab])
    | none => m ++ [(iid, [lab])]
  else m

/-- Embedding of `database.get_issue_labels` (lines 133-176): empty input
or no surviving digit-only id returns the empty mapping without querying
(the query outcome parameter is unused on those paths); otherwise the rows
the query layer yields are folded into an id-to-labels mapping. The
enclosing try/except means the function never raises; with the modelled
query layer (which itself never raises) the except path is unreachable. -/
def get_issue_labels (issue_ids : List String) (api : ApiResp) :
    List (String × List Value) :=
  if issue_ids.isEmpty then []
  else if (issue_ids.filter pyIsDigit).isEmpty then []
  else (execute_snowflake_query api).foldl labelsStep []

/-- Outcome of one enrichment lookup as the orchestrator sees it: a
mapping from stringified id to related values, or a failure. -/
inductive LookupOutcome where
  | ok (m : List (String × List Value))
  | failed
deriving DecidableEq, Repr

/-- The mapping a lookup outcome contributes: a failed lookup degrades to
the empty mapping. -/
def lookupResult : LookupOutcome → List (String × List Value)
  | .ok m => m
  | .failed => []

/-- Modelled from the spec: `get_issue_enrichment_data_concurrent` lives in
the newer `database.py`, which is not among the provided sources (only its
caller `src/tools.py` is). Per spec section 4.4: given the entity ids, the
three lookups (labels, comments, links) run concurrently; an empty id set
returns three empty mappings without issuing any query; a failure in one
lookup does not abort the others and is surfaced as the empty mapping for
that relation; the call returns only when all three have settled. -/
def get_issue_enrichment_data_concurrent (issue_ids : List String)
    (labelsO commentsO linksO : LookupOutcome) :
    List (String × List Value) × List (String × List Value) ×
      List (String × List Value) :=
  if issue_ids.isEmpty then ([], [], [])
  else (lookupResult labelsO, lookupResult commentsO, lookupResult linksO)

/-- Which credential scheme is configured (`SNOWFLAKE_AUTH_METHOD`). -/
inductive AuthMethod where
  | token
  | private_key
deriving DecidableEq, Repr

/-- Outcome of the early JWT validation done under private-key
authentication (`src/tools.py` lines 97-103): generation succeeds, returns
a falsy token, or raises. -/
inductive JwtCheck where
  | ok
  | genFailed
  | raised
deriving DecidableEq, Repr

/-- A list-view issue after enrichment, `src/tools.py` lines 268-273:
labels and links merged in, comments intentionally omitted. -/
structure EnrichedIssue where
  issue : Issue
  labels : List Value
  links : List Value
deriving DecidableEq, Repr

/-- The enrichment merge for one list-view issue, `src/tools.py` lines
268-271: look the stringified id up in each mapping, defaulting to `[]`. -/
def enrichListIssue (labelsMap linksMap : List (String × List Value))
    (i : Issue) : EnrichedIssue :=
  ⟨i, alGetD labelsMap (pyStr i.id) [], alGetD linksMap (pyStr i.id) []⟩

/-- Result payload of the list operation: the success shape of
`src/tools.py` lines 275-291 (which carries no `error` key), or one of the
error payloads (lines 94-103 and 293-297), which carry an explicit
`error` field. -/
inductive ListResult where
  | success (issues : List EnrichedIssue) (total_returned : Nat)
  | errorPayload (msg : String)
deriving DecidableEq, Repr

/-- Whether a list payload carries the explicit `error` field. -/
def listIsError : ListResult → Bool
  | .success _ _ => false
  | .errorPayload _ => true

/-- Embedding of the control flow of `list_jira_issues` in the newer
`src/tools.py` (lines 88-297). Inputs stand for the collaborator-boundary
outcomes: the token the transport yields, the JWT validation outcome, the
primary query's API outcome and the three enrichment lookup outcomes. The
filter parameters only shape the SQL text (modelled separately by
`date_filter_conditions`) and do not affect the result shape, so they are
not parameters here. Exceptions inside the body surface as the generic
error payload of line 297. -/
def list_jira_issues (method : AuthMethod) (tok : Option String)
    (jwt : JwtCheck) (api : ApiResp)
    (labelsO commentsO linksO : LookupOutcome) : ListResult :=
  if tokenFalsy tok && (method == .token) then
    .errorPayload "No Snowflake token available"
  else if (method == .private_key) && (jwt == .genFailed) then
    .errorPayload "Failed to generate JWT token for private key authentication"
  else if (method == .private_key) && (jwt == .raised) then
    .errorPayload "JWT token error"
  else
    match aggLoop initAggState (execute_snowflake_query api) with
    | none => .errorPayload "Error reading issues from Snowflake"
    | some st =>
      let e := get_issue_enrichment_data_concurrent st.issue_ids labelsO commentsO linksO
      let issues := st.issues_by_id.map (fun p => enrichListIssue e.1 e.2.2 p.2)
      .success issues issues.length

/-- C1 counterexample: with a valid token and a failing primary query
(HTTP error, transport error or unparseable response all reach the
operation as the same `failure` outcome), `list_jira_issues` returns the
normal success payload with an empty issue list and no `error` field —
not a query-error result. This refutes the claim that primary-query
failures are never swallowed. -/
theorem primary_query_failure_counterexample :
    list_jira_issues .token (some "tkn") .ok .failure (.ok []) (.ok []) (.ok [])
      = .success [] 0 ∧
    listIsError
      (list_jira_issues .token (some "tkn") .ok .failure (.ok []) (.ok []) (.ok []))
      = false := ⟨rfl, rfl⟩

/-- C1 as amended: primary-query failures are swallowed by the query
layer. `execute_snowflake_query` converts every failure of the request
layer into an empty row list, so with any non-falsy token the operation
returns the normal success payload with zero issues rather than an error
payload; failures are only logged and counted in metrics. -/
theorem primary_query_failure_swallowed (tok : Option String)
    (o1 o2 o3 : LookupOutcome) (htok : tokenFalsy tok = false) :
    execute_snowflake_query .failure = [] ∧
    list_jira_issues .token tok .ok .failure o1 o2 o3 = .success [] 0 := by
  refine ⟨rfl, ?_⟩
  simp [list_jira_issues, htok, execute_snowflake_query, aggLoop, initAggState,
    get_issue_enrichment_data_concurrent]

/-- Witness for the amended C1 at a concrete token. -/
theorem primary_query_failure_swallowed_witness :
    tokenFalsy (some "tkn") = false ∧
    (execute_snowflake_query .failure = [] ∧
     list_jira_issues .token (some "tkn") .ok .failure (.ok []) (.ok []) (.ok [])
       = .success [] 0) :=
  ⟨rfl, primary_query_failure_swallowed (some "tkn") (.ok []) (.ok []) (.ok []) rfl⟩

/-- A 21-column row of the list query carrying only a primary id and a
pre-aggregated component-name string. -/
def c4Row (idv comp : Value) : List Value :=
  idv :: (List.replicate 19 Value.vNull ++ [comp])

/-- The spec's RowAggregator example input. -/
def c4Rows : List (List Value) :=
  [c4Row (.vInt 1) (.vStr "A||B"),
   c4Row (.vInt 1) (.vStr "B||C"),
   c4Row (.vInt 2) (.vStr "")]

/-- The aggregation state the example input produces. -/
def c4St : AggState := (aggLoop initAggState c4Rows).getD initAggState

/-- C4: the list aggregation emits records in the order entity ids are
first encountered (the dict's key sequence equals the first-seen fold of
the rows' ids), never reorders or drops an entity once seen, and never
duplicates a component name; on the spec's example rows it yields exactly
two records, id 1 with components A, B, C in first-seen order and id 2
with no components. -/
theorem row_aggregation_first_seen_order :
    (∀ (rows : List (List Value)) (st : AggState),
      aggLoop initAggState rows = some st →
      st.issues_by_id.map Prod.fst = st.issue_ids ∧
      st.issue_ids = firstSeenFold [] (rows.filterMap rowIdOf) ∧
      ∀ p ∈ st.issues_by_id, p.2.component.Nodup) ∧
    (aggLoop initAggState c4Rows).map
        (fun st => st.issues_by_id.map (fun p => (p.1, p.2.component))) =
      some [("1", ["A", "B", "C"]), ("2", [])] := by
  constructor
  · intro rows st h
    have hinit : AggInv initAggState := ⟨rfl, by simp [initAggState]⟩
    obtain ⟨⟨hkeys, hcomp⟩, hids⟩ := aggLoop_spec rows initAggState st hinit h
    exact ⟨hkeys, hids, hcomp⟩
  · rfl

/-- Witness for C4 at the spec's example rows. -/
theorem row_aggregation_first_seen_order_witness :
    aggLoop initAggState c4Rows = some c4St ∧
    (c4St.issues_by_id.map Prod.fst = c4St.issue_ids ∧
     c4St.issue_ids = firstSeenFold [] (c4Rows.filterMap rowIdOf) ∧
     ∀ p ∈ c4St.issues_by_id, p.2.component.Nodup) :=
  ⟨rfl, row_aggregation_first_seen_order.1 c4Rows c4St rfl⟩

/-- C5: enrichment is fail-soft. A failed labels lookup yields the same
empty mapping as a query that returns no rows (so callers cannot and need
not distinguish "lookup failed" from "no data"); in the orchestrator a
failed comments lookup leaves the labels and links mappings intact and
degrades only comments to the empty mapping; and a failed enrichment
lookup never turns the list operation's success payload into an error
payload. The orchestrator itself is modelled from the spec (its module is
not among the provided sources); the labels lookup and the operation flow
are embedded from `database.py` and `src/tools.py`. -/
theorem enrichment_fail_soft :
    (∀ ids : List String,
      get_issue_labels ids .failure = [] ∧
      get_issue_labels ids .failure = get_issue_labels ids (.withData [])) ∧
    (∀ (ids : List String) (L K : List (String × List Value)), ids ≠ [] →
      get_issue_enrichment_data_concurrent ids (.ok L) .failed (.ok K)
        = (L, [], K)) ∧
    (∀ (tok : Option String) (rows : List (List Value)) (o1 o3 : LookupOutcome),
      tokenFalsy tok = false →
      (aggLoop initAggState rows).isSome = true →
      listIsError (list_jira_issues .token tok .ok (.withData rows) o1 .failed o3)
        = false) := by
  refine ⟨?_, ?_, ?_⟩
  · intro ids
    rw [get_issue_labels, get_issue_labels]
    by_cases h1 : ids.isEmpty
    · simp [h1]
    · by_cases h2 : (ids.filter pyIsDigit).isEmpty
      · simp [h1, h2]
      · simp [h1, h2, execute_snowflake_query]
  · intro ids L K h
    cases ids with
    | nil => exact absurd rfl h
    | cons a as =>
      simp [get_issue_enrichment_data_concurrent, lookupResult, List.isEmpty]
  · intro tok rows o1 o3 htok hsome
    obtain ⟨st, hst⟩ := Option.isSome_iff_exists.mp hsome
    simp [list_jira_issues, htok, execute_snowflake_query, hst, listIsError]

/-- Witness for C5 at concrete inputs. -/
theorem enrichment_fail_soft_witness :
    (["1"] ≠ ([] : List String)) ∧
    get_issue_enrichment_data_concurrent ["1"]
        (.ok [("1", [Value.vStr "x"])]) .failed (.ok [])
      = ([("1", [Value.vStr "x"])], [], []) ∧
    tokenFalsy (some "tkn") = false ∧
    (aggLoop initAggState []).isSome = true ∧
    listIsError
      (list_jira_issues .token (some "tkn") .ok (.withData []) (.ok []) .failed
        (.ok [])) = false :=
  ⟨by simp,
   enrichment_fail_soft.2.1 ["1"] [("1", [Value.vStr "x"])] [] (by simp),
   rfl, rfl,
   enrichment_fail_soft.2.2 (some "tkn") [] (.ok []) (.ok []) rfl rfl⟩

/-- C7: `sanitize_sql_value` doubles every single quote of a string input
and alters, adds or removes nothing else (its output is exactly the
character-wise expansion of the input, hence no truncation), stringifies
every non-string input, and — being a total function over the modelled
value type — always terminates and never raises. -/
theorem sanitize_sql_value_spec :
    (∀ s : String,
      (sanitize_sql_value (.vStr s)).data = quoteExpand s.data ∧
      (sanitize_sql_value (.vStr s)).data =
        s.data.flatMap (fun c => if c = squote then [squote, squote] else [c])) ∧
    (∀ v : Value, (∀ t : String, v ≠ .vStr t) → sanitize_sql_value v = pyStr v) := by
  have h1 : ∀ s : String,
      (sanitize_sql_value (.vStr s)).data = quoteExpand s.data := by
    intro s
    show (String.mk (py_replace s.data [squote] [squote, squote])).data = _
    rw [py_replace]
    exact py_replace_fuel_quote s.data.length s.data le_rfl
  refine ⟨fun s => ⟨h1 s, ?_⟩, ?_⟩
  · rw [h1 s, quoteExpand_eq_flatMap]
  · intro v hv
    cases v with
    | vNull => rfl
    | vStr t => exact absurd rfl (hv t)
    | vInt n => rfl

/-- A name containing a single quote, built from code points. -/
def c7Str : String := String.mk ['O', squote, 'B', 'r', 'i', 'e', 'n']

/-- Witness for C7 at a concrete quoted string and a concrete non-string. -/
theorem sanitize_sql_value_spec_witness :
    (sanitize_sql_value (.vStr c7Str)).data = quoteExpand c7Str.data ∧
    sanitize_sql_value (.vInt 42) = pyStr (.vInt 42) :=
  ⟨(sanitize_sql_value_spec.1 c7Str).1,
   sanitize_sql_value_spec.2 (.vInt 42) (fun _ h => Value.noConfusion h)⟩

/-- Column layout of the detail query, `src/tools.py` lines 363-370. -/
def detailColumns : List String :=
  ["ID", "ISSUE_KEY", "PROJECT", "ISSUENUM", "ISSUETYPE", "SUMMARY", "DESCRIPTION",
   "PRIORITY", "ISSUESTATUS", "RESOLUTION", "CREATED", "UPDATED", "DUEDATE",
   "RESOLUTIONDATE", "VOTES", "WATCHES", "ENVIRONMENT", "COMPONENT", "FIXFOR",
   "TIMEORIGINALESTIMATE", "TIMEESTIMATE", "TIMESPENT", "WORKFLOW_ID",
   "SECURITY", "ARCHIVED", "ARCHIVEDDATE",
   "COMPONENT_NAME", "COMPONENT_DESCRIPTION", "COMPONENT_ARCHIVED",
   "COMPONENT_DELETED"]

/-- One detail-view issue record, `src/tools.py` lines 384-412. -/
structure DIssue where
  id : Value
  key : Value
  project : Value
  issue_number : Value
  issue_type : Value
  summary : Value
  description : Value
  priority : Value
  status : Value
  resolution : Value
  created : Value
  updated : Value
  due_date : Value
  resolution_date : Value
  votes : Value
  watches : Value
  environment : Value
  component : Value
  fix_version : Value
  time_original_estimate : Value
  time_estimate : Value
  time_spent : Value
  workflow_id : Value
  security : Value
  archived : Value
  archived_date : Value
  component_name : Value
deriving DecidableEq, Repr

/-- Record built from one detail row, `src/tools.py` lines 384-412. -/
def mkDetailIssue (d : RowDict) (kv : Value) : DIssue where
  id := dget d "ID"
  key := kv
  project := dget d "PROJECT"
  issue_number := dget d "ISSUENUM"
  issue_type := dget d "ISSUETYPE"
  summary := dget d "SUMMARY"
  description := dgetD d "DESCRIPTION" (.vStr "")
  priority := dget d "PRIORITY"
  status := dget d "ISSUESTATUS"
  resolution := dget d "RESOLUTION"
  created := dget d "CREATED"
  updated := dget d "UPDATED"
  due_date := dget d "DUEDATE"
  resolution_date := dget d "RESOLUTIONDATE"
  votes := dget d "VOTES"
  watches := dget d "WATCHES"
  environment := dget d "ENVIRONMENT"
  component := dget d "COMPONENT"
  fix_version := dget d "FIXFOR"
  time_original_estimate := dget d "TIMEORIGINALESTIMATE"
  time_estimate := dget d "TIMEESTIMATE"
  time_spent := dget d "TIMESPENT"
  workflow_id := dget d "WORKFLOW_ID"
  security := dget d "SECURITY"
  archived := dget d "ARCHIVED"
  archived_date := dget d "ARCHIVEDDATE"
  component_name := dget d "COMPONENT_NAME"

/-- State of the detail row loop, `src/tools.py` lines 372-416: the dict
of found issues keyed by the `ISSUE_KEY` value (later rows with the same
key overwrite earlier ones in place), the set of keys seen (modelled as a
first-seen-ordered duplicate-free list, which has the same membership),
and the id list collected for enrichment. -/
structure DetailState where
  found : List (Value × DIssue)
  found_keys : List Value
  issue_ids : List String
deriving DecidableEq, Repr

/-- The empty detail state. -/
def initDetailState : DetailState := ⟨[], [], []⟩

/-- Embedding of one iteration of the detail row loop: rows with a falsy
`ISSUE_KEY` are skipped entirely; otherwise the key is recorded, the
record is upserted under the key, and a truthy `ID` is appended
(stringified) to the enrichment id list. -/
def detailStep (st : DetailState) (row : List Value) : DetailState :=
  let d := format_snowflake_row row detailColumns
  let kv := dget d "ISSUE_KEY"
  if truthy kv then
    ⟨alSet st.found kv (mkDetailIssue d kv),
     if kv ∈ st.found_keys then st.found_keys else st.found_keys ++ [kv],
     if truthy (dget d "ID") then st.issue_ids ++ [pyStr (dget d "ID")]
     else st.issue_ids⟩
  else st

/-- The detail row loop over all returned rows. -/
def detailLoop : DetailState → List (List Value) → DetailState
  | st, [] => st
  | st, r :: rs => detailLoop (detailStep st r) rs

/-- The key a row contributes to the found set, exactly as the loop
extracts it: `none` when the formatted row's `ISSUE_KEY` is falsy. -/
def detailRowKey (row : List Value) : Option Value :=
  let kv := dget (format_snowflake_row row detailColumns) "ISSUE_KEY"
  if truthy kv then some kv else none

/-- A detail-view issue after enrichment, `src/tools.py` lines 421-433:
`none` fields model the enrichment keys being absent when no ids were
collected (the `if issue_ids:` guard). -/
structure EnrichedDIssue where
  issue : DIssue
  labels : Option (List Value)
  comments : Option (List Value)
  links : Option (List Value)
deriving DecidableEq, Repr

/-- The enrichment merge of the detail operation, `src/tools.py` lines
421-433: performed only when at least one id was collected; every found
record then gets labels, comments and links looked up by stringified id. -/
def enrichDetailFound (st : DetailState)
    (labelsO commentsO linksO : LookupOutcome) :
    List (Value × EnrichedDIssue) :=
  if st.issue_ids.isEmpty then
    st.found.map (fun p => (p.1, ⟨p.2, none, none, none⟩))
  else
    let e := get_issue_enrichment_data_concurrent st.issue_ids labelsO commentsO linksO
    st.found.map (fun p => (p.1,
      ⟨p.2, some (alGetD e.1 (pyStr p.2.id) []),
        some (alGetD e.2.1 (pyStr p.2.id) []),
        some (alGetD e.2.2 (pyStr p.2.id) [])⟩))

/-- Result payload of the detail operation: the success shape of
`src/tools.py` lines 435-440, or an error payload (lines 317-326 and
442-446). -/
inductive DetailResult where
  | success (found_issues : List (Value × EnrichedDIssue))
      (not_found : List String) (total_found : Nat) (total_requested : Nat)
  | errorPayload (msg : String)
deriving DecidableEq, Repr

/-- Whether a detail payload carries the explicit `error` field. -/
def detailIsError : DetailResult → Bool
  | .success _ _ _ _ => false
  | .errorPayload _ => true

/-- The `not_found` list of a detail payload. -/
def detailNotFound : DetailResult → List String
  | .success _ nf _ _ => nf
  | .errorPayload _ => []

/-- The ids carried by the returned found records, in result order. -/
def detailFoundIds : DetailResult → List Value
  | .success f _ _ _ => f.map (fun p => p.2.issue.id)
  | .errorPayload _ => []

/-- The number of returned found records. -/
def detailFoundLen : DetailResult → Nat
  | .success f _ _ _ => f.length
  | .errorPayload _ => 0

/-- The reported `total_found` of a detail payload. -/
def detailTotalFound : DetailResult → Nat
  | .success _ _ tf _ => tf
  | .errorPayload _ => 0

/-- The reported `total_requested` of a detail payload. -/
def detailTotalRequested : DetailResult → Nat
  | .success _ _ _ tr => tr
  | .errorPayload _ => 0

/-- Embedding of the control flow of `get_jira_issue_details`
(`src/tools.py` lines 301-446): credential checks, the empty-input early
return (zero-result shape without querying), the row loop, the complement
computation for `not_found` (requested keys not in the found set, in
request order), enrichment, and the success payload with
`total_found = len(found_issues)` and `total_requested = len(issue_keys)`. -/
def get_jira_issue_details (method : AuthMethod) (tok : Option String)
    (jwt : JwtCheck) (issue_keys : List String) (api : ApiResp)
    (labelsO commentsO linksO : LookupOutcome) : DetailResult :=
  if tokenFalsy tok && (method == .token) then
    .errorPayload "No Snowflake token available"
  else if (method == .private_key) && (jwt == .genFailed) then
    .errorPayload "Failed to generate JWT token for private key authentication"
  else if (method == .private_key) && (jwt == .raised) then
    .errorPayload "JWT token error"
  else if issue_keys.isEmpty then
    .success [] [] 0 0
  else
    let st := detailLoop initDetailState (execute_snowflake_query api)
    let not_found := issue_keys.filter
      (fun k => !(decide (Value.vStr k ∈ st.found_keys)))
    let found := enrichDetailFound st labelsO commentsO linksO
    .success found not_found found.length issue_keys.length

theorem detailStep_found_keys (st : DetailState) (r : List Value) (v : Value) :
    v ∈ (detailStep st r).found_keys ↔
      v ∈ st.found_keys ∨ detailRowKey r = some v := by
  rw [detailStep, detailRowKey]
  by_cases ht : truthy (dget (format_snowflake_row r detailColumns) "ISSUE_KEY") = true
  · simp only [if_pos ht]
    by_cases hm : dget (format_snowflake_row r detailColumns) "ISSUE_KEY"
        ∈ st.found_keys
    · simp only [if_pos hm]
      constructor
      · exact Or.inl
      · rintro (h | h)
        · exact h
        · injection h with h
          exact h ▸ hm
    · simp only [if_neg hm, List.mem_append, List.mem_singleton]
      constructor
      · rintro (h | h)
        · exact Or.inl h
        · exact Or.inr (by rw [h])
      · rintro (h | h)
        · exact Or.inl h
        · injection h with h
          exact Or.inr h.symm
  · simp only [if_neg ht]
    constructor
    · exact Or.inl
    · rintro (h | h)
      · exact h
      · exact absurd h (by simp)

theorem detailLoop_found_keys (rows : List (List Value)) (st : DetailState)
    (v : Value) :
    v ∈ (detailLoop st rows).found_keys ↔
      v ∈ st.found_keys ∨ ∃ r ∈ rows, detailRowKey r = some v := by
  induction rows generalizing st with
  | nil => simp [detailLoop]
  | cons r rs ih =>
    rw [detailLoop, ih, detailStep_found_keys]
    constructor
    · rintro ((h | h) | ⟨r2, hr2, he⟩)
      · exact Or.inl h
      · exact Or.inr ⟨r, List.mem_cons_self _ _, h⟩
      · exact Or.inr ⟨r2, List.mem_cons_of_mem _ hr2, he⟩
    · rintro (h | ⟨r2, hr2, he⟩)
      · exact Or.inl (Or.inl h)
      · rcases List.mem_cons.mp hr2 with rfl | h2
        · exact Or.inl (Or.inr he)
        · exact Or.inr ⟨r2, h2, he⟩

theorem detailStep_found_nodup (st : DetailState) (r : List Value)
    (h : (st.found.map Prod.fst).Nodup) :
    ((detailStep st r).found.map Prod.fst).Nodup := by
  rw [detailStep]
  by_cases ht : truthy (dget (format_snowflake_row r detailColumns) "ISSUE_KEY") = true
  · simp only [if_pos ht]
    have hk := alKeys_alSet st.found
      (dget (format_snowflake_row r detailColumns) "ISSUE_KEY")
      (mkDetailIssue (format_snowflake_row r detailColumns)
        (dget (format_snowflake_row r detailColumns) "ISSUE_KEY"))
    simp only [alKeys] at hk
    rw [hk]
    by_cases hm : dget (format_snowflake_row r detailColumns) "ISSUE_KEY"
        ∈ List.map Prod.fst st.found
    · rw [if_pos hm]; exact h
    · rw [if_neg hm]
      simp [List.nodup_append, h, hm]
  · simp only [if_neg ht]
    exact h

theorem detailLoop_found_nodup (rows : List (List Value)) (st : DetailState)
    (h : (st.found.map Prod.fst).Nodup) :
    ((detailLoop st rows).found.map Prod.fst).Nodup := by
  induction rows generalizing st with
  | nil => exact h
  | cons r rs ih => exact ih (detailStep st r) (detailStep_found_nodup st r h)

/-- C8: for every requested key list and row set, the detail operation's
`not_found` is exactly the requested keys with no matching returned row
(the complement of the found-key set), in request order; `total_found`
equals the number of returned found records and `total_requested` the
number of requested keys; the payload is the success shape. A row
"matches" a key when its formatted `ISSUE_KEY` is that key and truthy —
the loop ignores rows with falsy keys, so a requested empty-string key is
never counted as found. -/
theorem detail_not_found_complement (tok : Option String) (keys : List String)
    (rows : List (List Value)) (o1 o2 o3 : LookupOutcome)
    (htok : tokenFalsy tok = false) :
    detailNotFound
        (get_jira_issue_details .token tok .ok keys (.withData rows) o1 o2 o3)
      = keys.filter
          (fun k => !(decide (∃ r ∈ rows, detailRowKey r = some (Value.vStr k)))) ∧
    detailTotalFound
        (get_jira_issue_details .token tok .ok keys (.withData rows) o1 o2 o3)
      = detailFoundLen
          (get_jira_issue_details .token tok .ok keys (.withData rows) o1 o2 o3) ∧
    detailTotalRequested
        (get_jira_issue_details .token tok .ok keys (.withData rows) o1 o2 o3)
      = keys.length ∧
    detailIsError
        (get_jira_issue_details .token tok .ok keys (.withData rows) o1 o2 o3)
      = false := by
  have hfun : (fun k => !(decide (Value.vStr k
        ∈ (detailLoop initDetailState rows).found_keys)))
      = (fun k => !(decide (∃ r ∈ rows, detailRowKey r = some (Value.vStr k)))) := by
    funext k
    congr 1
    rw [decide_eq_decide, detailLoop_found_keys]
    simp [initDetailState]
  cases keys with
  | nil =>
    simp [get_jira_issue_details, htok, detailNotFound, detailTotalFound,
      detailTotalRequested, detailIsError, detailFoundLen]
  | cons k0 ks =>
    have hres : get_jira_issue_details .token tok .ok (k0 :: ks)
        (.withData rows) o1 o2 o3
        = .success
            (enrichDetailFound (detailLoop initDetailState rows) o1 o2 o3)
            ((k0 :: ks).filter (fun k => !(decide (Value.vStr k
              ∈ (detailLoop initDetailState rows).found_keys))))
            (enrichDetailFound (detailLoop initDetailState rows) o1 o2 o3).length
            (k0 :: ks).length := by
      rw [get_jira_issue_details, htok]
      rfl
    rw [hres]
    exact ⟨by rw [detailNotFound, hfun], rfl, rfl, rfl⟩

/-- A 30-column detail row for issue key X-1 with id 11. -/
def c8Row : List Value :=
  Value.vStr "11" :: Value.vStr "X-1" :: List.replicate 28 Value.vNull

/-- Witness for C8 at the spec's example: requesting X-1 and X-2 when only
X-1 exists yields `not_found = [X-2]`, `total_found = 1`,
`total_requested = 2`. -/
theorem detail_not_found_complement_witness :
    tokenFalsy (some "tkn") = false ∧
    detailNotFound (get_jira_issue_details .token (some "tkn") .ok ["X-1", "X-2"]
        (.withData [c8Row]) (.ok []) (.ok []) (.ok [])) = ["X-2"] ∧
    detailTotalFound (get_jira_issue_details .token (some "tkn") .ok ["X-1", "X-2"]
        (.withData [c8Row]) (.ok []) (.ok []) (.ok [])) = 1 ∧
    detailTotalRequested (get_jira_issue_details .token (some "tkn") .ok
        ["X-1", "X-2"] (.withData [c8Row]) (.ok []) (.ok []) (.ok [])) = 2 := by
  have h := detail_not_found_complement (some "tkn") ["X-1", "X-2"] [c8Row]
    (.ok []) (.ok []) (.ok []) rfl
  refine ⟨rfl, ?_, ?_, ?_⟩
  · rw [h.1]; rfl
  · rw [h.2.1]; rfl
  · rw [h.2.2.1]; rfl

/-- A 30-column detail row with id 1 and key A-1. -/
def c2RowA : List Value :=
  Value.vStr "1" :: Value.vStr "A-1" :: List.replicate 28 Value.vNull

/-- A 30-column detail row with the same id 1 but key A-2. -/
def c2RowB : List Value :=
  Value.vStr "1" :: Value.vStr "A-2" :: List.replicate 28 Value.vNull

/-- C2 counterexample: the detail operation merges rows by issue key, not
by id. Two returned rows with the same id but distinct keys produce a
result set with two records both carrying id 1 — the same Issue id appears
twice in one result set returned to the caller, refuting the claim that
rows sharing an id are always merged into exactly one record. -/
theorem duplicate_id_counterexample :
    detailFoundIds (get_jira_issue_details .token (some "tkn") .ok ["A-1", "A-2"]
        (.withData [c2RowA, c2RowB]) (.ok []) (.ok []) (.ok []))
      = [Value.vStr "1", Value.vStr "1"] ∧
    detailFoundLen (get_jira_issue_details .token (some "tkn") .ok ["A-1", "A-2"]
        (.withData [c2RowA, c2RowB]) (.ok []) (.ok []) (.ok [])) = 2 :=
  ⟨rfl, rfl⟩

/-- C2 as amended: the list operation merges rows by id, so no id appears
twice among its records; the detail-by-keys operation merges rows by issue
key, so no key appears twice among its records — but records with distinct
keys may share an id. -/
theorem result_merge_keyed :
    (∀ (rows : List (List Value)) (st : AggState),
      aggLoop initAggState rows = some st →
      (st.issues_by_id.map Prod.fst).Nodup) ∧
    (∀ rows : List (List Value),
      ((detailLoop initDetailState rows).found.map Prod.fst).Nodup) := by
  constructor
  · intro rows st h
    have hinit : AggInv initAggState := ⟨rfl, by simp [initAggState]⟩
    obtain ⟨⟨hkeys, _⟩, hids⟩ := aggLoop_spec rows initAggState st hinit h
    rw [hkeys, hids]
    exact addCompNames_nodup (rows.filterMap rowIdOf) [] List.nodup_nil
  · intro rows
    exact detailLoop_found_nodup rows initDetailState (by simp [initDetailState])

/-- A single-row list input for the amended-C2 witness. -/
def c2ListRows : List (List Value) := [c4Row (.vInt 7) .vNull]

/-- The aggregation state the amended-C2 witness input produces. -/
def c2St : AggState := (aggLoop initAggState c2ListRows).getD initAggState

/-- Witness for the amended C2 at concrete inputs. -/
theorem result_merge_keyed_witness :
    aggLoop initAggState c2ListRows = some c2St ∧
    (c2St.issues_by_id.map Prod.fst).Nodup ∧
    ((detailLoop initDetailState [c2RowA, c2RowB]).found.map Prod.fst).Nodup :=
  ⟨rfl, result_merge_keyed.1 c2ListRows c2St rfl,
   result_merge_keyed.2 [c2RowA, c2RowB]⟩

/-- Column layout of the legacy list query, `tools.py` lines 86-91. -/
def legacyListColumns : List String :=
  ["ID", "ISSUE_KEY", "PROJECT", "ISSUENUM", "ISSUETYPE", "SUMMARY",
   "DESCRIPTION_TRUNCATED", "DESCRIPTION", "PRIORITY", "ISSUESTATUS",
   "RESOLUTION", "CREATED", "UPDATED", "DUEDATE", "RESOLUTIONDATE",
   "VOTES", "WATCHES", "ENVIRONMENT", "COMPONENT", "FIXFOR"]

/-- One legacy list-view issue record, `tools.py` lines 97-117. -/
structure OldIssue where
  id : Value
  key : Value
  project : Value
  issue_number : Value
  issue_type : Value
  summary : Value
  description : Value
  priority : Value
  status : Value
  resolution : Value
  created : Value
  updated : Value
  due_date : Value
  resolution_date : Value
  votes : Value
  watches : Value
  environment : Value
  component : Value
  fix_version : Value
deriving DecidableEq, Repr

/-- Record built from one legacy list row, `tools.py` lines 97-117. -/
def mkOldIssue (d : RowDict) : OldIssue where
  id := dget d "ID"
  key := dget d "ISSUE_KEY"
  project := dget d "PROJECT"
  issue_number := dget d "ISSUENUM"
  issue_type := dget d "ISSUETYPE"
  summary := dget d "SUMMARY"
  description := pyOr (dget d "DESCRIPTION_TRUNCATED") (.vStr "")
  priority := dget d "PRIORITY"
  status := dget d "ISSUESTATUS"
  resolution := dget d "RESOLUTION"
  created := dget d "CREATED"
  updated := dget d "UPDATED"
  due_date := dget d "DUEDATE"
  resolution_date := dget d "RESOLUTIONDATE"
  votes := dget d "VOTES"
  watches := dget d "WATCHES"
  environment := dget d "ENVIRONMENT"
  component := dget d "COMPONENT"
  fix_version := dget d "FIXFOR"

/-- A legacy list-view issue after labels enrichment, `tools.py` 127-129. -/
structure OldEnrichedIssue where
  issue : OldIssue
  labels : List Value
deriving DecidableEq, Repr

/-- Result payload of the legacy list operation, `tools.py` lines 131-145. -/
inductive OldListResult where
  | success (issues : List OldEnrichedIssue) (total_returned : Nat)
  | errorPayload (msg : String)
deriving DecidableEq, Repr

/-- Whether a legacy list payload carries the explicit `error` field. -/
def oldListIsError : OldListResult → Bool
  | .success _ _ => false
  | .errorPayload _ => true

/-- One iteration of the legacy row loop, `tools.py` lines 93-121: every
row appends a record (no merging of any kind), and a truthy id is appended
to the enrichment id list. -/
def oldListStep (acc : List OldIssue × List String) (row : List Value) :
    List OldIssue × List String :=
  let d := format_snowflake_row row legacyListColumns
  (acc.1 ++ [mkOldIssue d],
   if truthy (dget d "ID") then acc.2 ++ [pyStr (dget d "ID")] else acc.2)

/-- Embedding of the legacy `list_issues` (`tools.py` lines 21-145). It
performs no credential check of its own: the environment token is consulted
only inside the request layer, whose failure (including a missing token)
yields an empty row list; the labels enrichment goes through the same
request layer. The operation therefore returns the normal success payload
whatever the token. -/
def list_issues (tokenEnv : Option String) (api apiLabels : ApiResp) :
    OldListResult :=
  let rows := execute_snowflake_query (make_snowflake_request tokenEnv api)
  let acc := rows.foldl oldListStep ([], [])
  let labelsMap := get_issue_labels acc.2 (make_snowflake_request tokenEnv apiLabels)
  .success (acc.1.map (fun i => ⟨i, alGetD labelsMap (pyStr i.id) []⟩))
    acc.1.length

/-- A 20-column legacy list row with id 1 and key K-1. -/
def c6Row : List Value :=
  Value.vStr "1" :: Value.vStr "K-1" :: List.replicate 18 Value.vNull

/-- C6 counterexample: the legacy `list_issues` is an exposed operation,
yet with a null credential (and warehouse data present) it attempts its
query through the request layer and returns the normal success payload
with an empty issue list and no `error` field — not an authentication
error result. This refutes the claim for that operation. -/
theorem missing_credential_counterexample :
    list_issues none (.withData [c6Row]) (.withData []) = .success [] 0 ∧
    oldListIsError (list_issues none (.withData [c6Row]) (.withData [])) = false :=
  ⟨rfl, rfl⟩

/-- C6 as amended: the current-generation operations return the distinct
authentication-error payload without consulting the query outcome whenever
the token is null or empty under token authentication (shown for the list
and detail operations; the summary and links operations share the same
prologue), while the legacy `list_issues` performs no credential check and
returns a normal success payload with zero issues when the token is
missing. -/
theorem missing_credential_behavior :
    (∀ (tok : Option String) (jwt : JwtCheck) (api : ApiResp)
        (o1 o2 o3 : LookupOutcome), tokenFalsy tok = true →
      list_jira_issues .token tok jwt api o1 o2 o3
        = .errorPayload "No Snowflake token available") ∧
    (∀ (tok : Option String) (jwt : JwtCheck) (keys : List String)
        (api : ApiResp) (o1 o2 o3 : LookupOutcome), tokenFalsy tok = true →
      get_jira_issue_details .token tok jwt keys api o1 o2 o3
        = .errorPayload "No Snowflake token available") ∧
    (∀ api apiLabels : ApiResp,
      list_issues none api apiLabels = .success [] 0 ∧
      oldListIsError (list_issues none api apiLabels) = false) := by
  refine ⟨?_, ?_, ?_⟩
  · intro tok jwt api o1 o2 o3 h
    rw [list_jira_issues, h]
    rfl
  · intro tok jwt keys api o1 o2 o3 h
    rw [get_jira_issue_details, h]
    rfl
  · intro api apiLabels
    exact ⟨rfl, rfl⟩

/-- Witness for the amended C6 at concrete inputs. -/
theorem missing_credential_behavior_witness :
    tokenFalsy (some "") = true ∧
    list_jira_issues .token (some "") .ok (.withData []) (.ok []) (.ok []) (.ok [])
      = .errorPayload "No Snowflake token available" ∧
    get_jira_issue_details .token (some "") .ok ["K-1"] (.withData [])
        (.ok []) (.ok []) (.ok [])
      = .errorPayload "No Snowflake token available" ∧
    (list_issues none (.withData [c6Row]) (.withData []) = .success [] 0 ∧
     oldListIsError (list_issues none (.withData [c6Row]) (.withData [])) = false) :=
  ⟨rfl,
   missing_credential_behavior.1 (some "") .ok (.withData [])
     (.ok []) (.ok []) (.ok []) rfl,
   missing_credential_behavior.2.1 (some "") .ok ["K-1"] (.withData [])
     (.ok []) (.ok []) (.ok []) rfl,
   missing_credential_behavior.2.2 (.withData [c6Row]) (.withData [])⟩

/-- Fold a digit sequence into a natural number, most significant first. -/
def digitsToNat : List Char → Nat → Nat
  | [], acc => acc
  | c :: cs, acc => digitsToNat cs (acc * 10 + (c.toNat - 48))

/-- Model of Python `int(s)` on the string forms the warehouse yields:
optional whitespace, an optional leading minus sign, then decimal digits;
anything else raises (`none`). Python additionally accepts a plus sign,
underscores and unicode digits, none of which occur here. -/
def pyParseInt (s : String) : Option Int :=
  match (pyStrip s).data with
  | [] => none
  | c :: rest =>
    if c = Char.ofNat 45 then
      if rest ≠ [] ∧ rest.all Char.isDigit then
        some (-(Int.ofNat (digitsToNat rest 0)))
      else none
    else if (c :: rest).all Char.isDigit then
      some (Int.ofNat (digitsToNat (c :: rest) 0))
    else none

/-- Python `int(v)` on the modelled values: identity on ints, parse on
strings, `none` models a raised `TypeError`/`ValueError`. -/
def pyIntOpt : Value → Option Int
  | .vInt n => some n
  | .vStr s => pyParseInt s
  | .vNull => none

/-- Column layout of the summary query, `src/tools.py` line 486. -/
def summaryColumns : List String :=
  ["PROJECT", "ISSUESTATUS", "PRIORITY", "COUNT"]

/-- The count one summary row contributes, `src/tools.py` line 497:
zero when the `COUNT` key is absent or its value is `None`, otherwise
`int(...)` of the value (whose failure raises, modelled as `none`). -/
def countOf (d : RowDict) : Option Int :=
  match dgetOpt d "COUNT" with
  | none => some 0
  | some .vNull => some 0
  | some v => pyIntOpt v

/-- Per-project counters, `src/tools.py` lines 499-508. -/
structure ProjStat where
  total_issues : Int
  statuses : List (Value × Int)
  priorities : List (Value × Int)
deriving DecidableEq, Repr

/-- The per-row update of the project statistics, `src/tools.py` lines
499-508: a fresh project entry starting at zero is created on first
sight, then the row's count is added to the project total and to the
per-status and per-priority counters. -/
def bumpStats (stats : List (Value × ProjStat)) (P S R : Value) (c : Int) :
    List (Value × ProjStat) :=
  let stats1 := if (alGet stats P).isSome then stats else stats ++ [(P, ⟨0, [], []⟩)]
  alUpdate stats1 P (fun ps =>
    ⟨ps.total_issues + c,
     alSet ps.statuses S (alGetD ps.statuses S 0 + c),
     alSet ps.priorities R (alGetD ps.priorities R 0 + c)⟩)

/-- Embedding of one iteration of the summary fold, `src/tools.py` lines
491-510: defaults of "Unknown" apply only to absent keys; the row's count
updates the project statistics and the running grand total; a count whose
`int(...)` conversion raises aborts the fold (`none`). -/
def summaryStep (acc : List (Value × ProjStat) × Int) (row : List Value) :
    Option (List (Value × ProjStat) × Int) :=
  let d := format_snowflake_row row summaryColumns
  match countOf d with
  | none => none
  | some count =>
    some (bumpStats acc.1 (dgetD d "PROJECT" (.vStr "Unknown"))
        (dgetD d "ISSUESTATUS" (.vStr "Unknown"))
        (dgetD d "PRIORITY" (.vStr "Unknown")) count,
      acc.2 + count)

/-- The summary fold over all returned rows. -/
def summaryLoop : List (Value × ProjStat) × Int → List (List Value) →
    Option (List (Value × ProjStat) × Int)
  | acc, [] => some acc
  | acc, r :: rs =>
    match summaryStep acc r with
    | none => none
    | some acc1 => summaryLoop acc1 rs

/-- Result payload of the summary operation, `src/tools.py` 512-522. -/
inductive SummaryResult where
  | success (total_issues : Int) (total_projects : Nat)
      (projects : List (Value × ProjStat))
  | errorPayload (msg : String)
deriving DecidableEq, Repr

/-- Embedding of the control flow of `get_jira_project_summary`
(`src/tools.py` lines 450-522). -/
def get_jira_project_summary (method : AuthMethod) (tok : Option String)
    (jwt : JwtCheck) (api : ApiResp) : SummaryResult :=
  if tokenFalsy tok && (method == .token) then
    .errorPayload "No Snowflake token available"
  else if (method == .private_key) && (jwt == .genFailed) then
    .errorPayload "Failed to generate JWT token for private key authentication"
  else if (method == .private_key) && (jwt == .raised) then
    .errorPayload "JWT token error"
  else
    match summaryLoop ([], 0) (execute_snowflake_query api) with
    | none => .errorPayload "Error generating project summary from Snowflake"
    | some acc => .success acc.2 acc.1.length acc.1

/-- The count a row contributes, defaulted to zero (under a successful
fold every row's count parsed, so the default is never used). -/
def rowCountD (row : List Value) : Int :=
  (countOf (format_snowflake_row row summaryColumns)).getD 0

/-- The project key a row folds into. -/
def rowProject (row : List Value) : Value :=
  dgetD (format_snowflake_row row summaryColumns) "PROJECT" (.vStr "Unknown")

/-- The status key a row folds into. -/
def rowStatus (row : List Value) : Value :=
  dgetD (format_snowflake_row row summaryColumns) "ISSUESTATUS" (.vStr "Unknown")

/-- The priority key a row folds into. -/
def rowPriority (row : List Value) : Value :=
  dgetD (format_snowflake_row row summaryColumns) "PRIORITY" (.vStr "Unknown")

/-- A project's accumulated total, zero when the project is absent. -/
def projTotalD (stats : List (Value × ProjStat)) (p : Value) : Int :=
  match alGet stats p with
  | some ps => ps.total_issues
  | none => 0

/-- A project's accumulated per-status count, zero when absent. -/
def projStatusD (stats : List (Value × ProjStat)) (p s : Value) : Int :=
  match alGet stats p with
  | some ps => alGetD ps.statuses s 0
  | none => 0

/-- A project's accumulated per-priority count, zero when absent. -/
def projPriorityD (stats : List (Value × ProjStat)) (p pr : Value) : Int :=
  match alGet stats p with
  | some ps => alGetD ps.priorities pr 0
  | none => 0

theorem alGetD_alSet {α β : Type} [DecidableEq α] (l : List (α × β)) (k k' : α)
    (v d : β) :
    alGetD (alSet l k v) k' d = if k = k' then v else alGetD l k' d := by
  by_cases h : k = k'
  · subst h
    rw [alGetD, alGet_alSet_self, if_pos rfl]
    rfl
  · rw [alGetD, alGet_alSet_ne l k k' v h, if_neg h]
    rfl

theorem alGet_eq_none_of_not_isSome {α β : Type} [DecidableEq α]
    (l : List (α × β)) (k : α) (h : ¬ (alGet l k).isSome = true) :
    alGet l k = none := by
  cases hq : alGet l k with
  | none => rfl
  | some v => rw [hq] at h; simp at h

theorem bumpStats_total (stats : List (Value × ProjStat)) (P S R : Value)
    (c : Int) (p : Value) :
    projTotalD (bumpStats stats P S R c) p
      = projTotalD stats p + (if P = p then c else 0) := by
  simp only [bumpStats]
  by_cases hs : (alGet stats P).isSome = true
  · rw [if_pos hs]
    by_cases hP : P = p
    · subst hP
      obtain ⟨ps, hps⟩ := Option.isSome_iff_exists.mp hs
      simp [projTotalD, alGet_alUpdate_self, hps]
    · rw [projTotalD, projTotalD, alGet_alUpdate_ne _ _ _ _ hP, if_neg hP]
      simp
  · rw [if_neg hs]
    have hnone := alGet_eq_none_of_not_isSome stats P hs
    by_cases hP : P = p
    · subst hP
      rw [projTotalD, projTotalD, alGet_alUpdate_self, alGet_append, hnone]
      simp [alGet, hnone]
    · rw [projTotalD, projTotalD, alGet_alUpdate_ne _ _ _ _ hP, alGet_append,
        if_neg hP]
      cases hq : alGet stats p with
      | none => simp [hq, alGet, hP]
      | some ps => simp [hq]

theorem bumpStats_status (stats : List (Value × ProjStat)) (P S R : Value)
    (c : Int) (p s : Value) :
    projStatusD (bumpStats stats P S R c) p s
      = projStatusD stats p s + (if P = p ∧ S = s then c else 0) := by
  simp only [bumpStats]
  by_cases hs : (alGet stats P).isSome = true
  · rw [if_pos hs]
    by_cases hP : P = p
    · subst hP
      obtain ⟨ps, hps⟩ := Option.isSome_iff_exists.mp hs
      simp only [projStatusD, alGet_alUpdate_self, hps, Option.map, if_true]
      rw [alGetD_alSet]
      by_cases hS : S = s
      · subst hS
        simp
      · simp [hS]
    · rw [projStatusD, projStatusD, alGet_alUpdate_ne _ _ _ _ hP]
      simp [hP]
  · rw [if_neg hs]
    have hnone := alGet_eq_none_of_not_isSome stats P hs
    by_cases hP : P = p
    · subst hP
      rw [projStatusD, projStatusD, alGet_alUpdate_self, alGet_append, hnone]
      simp only [alGet, if_pos rfl, if_true, Option.map, hnone]
      rw [alGetD_alSet]
      by_cases hS : S = s
      · subst hS
        simp [alGetD, alGet]
      · simp [hS, alGetD, alGet]
    · rw [projStatusD, projStatusD, alGet_alUpdate_ne _ _ _ _ hP, alGet_append]
      cases hq : alGet stats p with
      | none => simp [hq, alGet, hP]
      | some ps => simp [hq, hP]

theorem bumpStats_priority (stats : List (Value × ProjStat)) (P S R : Value)
    (c : Int) (p pr : Value) :
    projPriorityD (bumpStats stats P S R c) p pr
      = projPriorityD stats p pr + (if P = p ∧ R = pr then c else 0) := by
  simp only [bumpStats]
  by_cases hs : (alGet stats P).isSome = true
  · rw [if_pos hs]
    by_cases hP : P = p
    · subst hP
      obtain ⟨ps, hps⟩ := Option.isSome_iff_exists.mp hs
      simp only [projPriorityD, alGet_alUpdate_self, hps, Option.map, if_true]
      rw [alGetD_alSet]
      by_cases hR : R = pr
      · subst hR
        simp
      · simp [hR]
    · rw [projPriorityD, projPriorityD, alGet_alUpdate_ne _ _ _ _ hP]
      simp [hP]
  · rw [if_neg hs]
    have hnone := alGet_eq_none_of_not_isSome stats P hs
    by_cases hP : P = p
    · subst hP
      rw [projPriorityD, projPriorityD, alGet_alUpdate_self, alGet_append, hnone]
      simp only [alGet, if_pos rfl, if_true, Option.map, hnone]
      rw [alGetD_alSet]
      by_cases hR : R = pr
      · subst hR
        simp [alGetD, alGet]
      · simp [hR, alGetD, alGet]
    · rw [projPriorityD, projPriorityD, alGet_alUpdate_ne _ _ _ _ hP, alGet_append]
      cases hq : alGet stats p with
      | none => simp [hq, alGet, hP]
      | some ps => simp [hq, hP]

theorem bumpStats_mem (stats : List (Value × ProjStat)) (P S R : Value)
    (c : Int) (p : Value) :
    (alGet (bumpStats stats P S R c) p).isSome = true ↔
      ((alGet stats p).isSome = true ∨ P = p) := by
  simp only [bumpStats]
  by_cases hs : (alGet stats P).isSome = true
  · rw [if_pos hs]
    by_cases hP : P = p
    · subst hP
      rw [alGet_alUpdate_self]
      simp [hs]
    · rw [alGet_alUpdate_ne _ _ _ _ hP]
      simp [hP]
  · rw [if_neg hs]
    have hnone := alGet_eq_none_of_not_isSome stats P hs
    by_cases hP : P = p
    · subst hP
      rw [alGet_alUpdate_self, alGet_append, hnone]
      simp [alGet]
    · rw [alGet_alUpdate_ne _ _ _ _ hP, alGet_append]
      cases hq : alGet stats p with
      | none => simp [hq, alGet, hP]
      | some ps => simp [hq]

theorem summaryStep_spec (acc : List (Value × ProjStat) × Int) (row : List Value)
    (acc' : List (Value × ProjStat) × Int) (h : summaryStep acc row = some acc') :
    acc'.2 = acc.2 + rowCountD row ∧
    (∀ p, projTotalD acc'.1 p = projTotalD acc.1 p +
      (if rowProject row = p then rowCountD row else 0)) ∧
    (∀ p s, projStatusD acc'.1 p s = projStatusD acc.1 p s +
      (if rowProject row = p ∧ rowStatus row = s then rowCountD row else 0)) ∧
    (∀ p pr, projPriorityD acc'.1 p pr = projPriorityD acc.1 p pr +
      (if rowProject row = p ∧ rowPriority row = pr then rowCountD row else 0)) ∧
    (∀ p, (alGet acc'.1 p).isSome = true ↔
      ((alGet acc.1 p).isSome = true ∨ rowProject row = p)) := by
  simp only [summaryStep] at h
  split at h
  · exact absurd h (by simp)
  · rename_i count hcs
    have hc : rowCountD row = count := by rw [rowCountD, hcs]; rfl
    cases h
    refine ⟨by rw [hc], ?_, ?_, ?_, ?_⟩
    · intro p
      rw [bumpStats_total, hc, rowProject]
    · intro p s
      rw [bumpStats_status, hc, rowProject, rowStatus]
    · intro p pr
      rw [bumpStats_priority, hc, rowProject, rowPriority]
    · intro p
      rw [bumpStats_mem, rowProject]

theorem summaryLoop_spec (rows : List (List Value))
    (acc res : List (Value × ProjStat) × Int)
    (h : summaryLoop acc rows = some res) :
    res.2 = acc.2 + (rows.map rowCountD).sum ∧
    (∀ p, projTotalD res.1 p = projTotalD acc.1 p +
      (rows.map (fun r => if rowProject r = p then rowCountD r else 0)).sum) ∧
    (∀ p s, projStatusD res.1 p s = projStatusD acc.1 p s +
      (rows.map (fun r =>
        if rowProject r = p ∧ rowStatus r = s then rowCountD r else 0)).sum) ∧
    (∀ p pr, projPriorityD res.1 p pr = projPriorityD acc.1 p pr +
      (rows.map (fun r =>
        if rowProject r = p ∧ rowPriority r = pr then rowCountD r else 0)).sum) ∧
    (∀ p, (alGet res.1 p).isSome = true ↔
      ((alGet acc.1 p).isSome = true ∨ p ∈ rows.map rowProject)) := by
  induction rows generalizing acc with
  | nil =>
    rw [summaryLoop] at h
    cases h
    simp
  | cons r rs ih =>
    rw [summaryLoop] at h
    split at h
    · exact absurd h (by simp)
    · rename_i acc1 hstep
      obtain ⟨g2, gtot, gstat, gprio, gmem⟩ := summaryStep_spec acc r acc1 hstep
      obtain ⟨h2, htot, hstat, hprio, hmem⟩ := ih acc1 h
      refine ⟨?_, ?_, ?_, ?_, ?_⟩
      · rw [h2, g2]
        simp only [List.map_cons, List.sum_cons]
        ring
      · intro p
        rw [htot p, gtot p]
        simp only [List.map_cons, List.sum_cons]
        ring
      · intro p s
        rw [hstat p s, gstat p s]
        simp only [List.map_cons, List.sum_cons]
        ring
      · intro p pr
        rw [hprio p pr, gprio p pr]
        simp only [List.map_cons, List.sum_cons]
        ring
      · intro p
        rw [hmem p, gmem p]
        simp only [List.map_cons, List.mem_cons]
        constructor
        · rintro ((h1 | h1) | h1)
          · exact Or.inl h1
          · exact Or.inr (Or.inl h1.symm)
          · exact Or.inr (Or.inr h1)
        · rintro (h1 | h1 | h1)
          · exact Or.inl (Or.inl h1)
          · exact Or.inl (Or.inr h1.symm)
          · exact Or.inr h1

/-- C9: the project-summary fold yields a grand total equal to the sum of
all row counts, each project's accumulated total equal to the sum of that
project's row counts, and per-status / per-priority counters accumulating
counts per value (a project appears in the map exactly when some row folds
into it); with the spec's example rows the totals are 5 for P1, statuses
Open 3 and Closed 2, priorities High 3 and Low 2. -/
theorem project_summary_fold (rows : List (List Value))
    (stats : List (Value × ProjStat)) (total : Int)
    (h : summaryLoop ([], 0) rows = some (stats, total)) :
    total = (rows.map rowCountD).sum ∧
    (∀ p, projTotalD stats p
        = (rows.map (fun r => if rowProject r = p then rowCountD r else 0)).sum) ∧
    (∀ p s, projStatusD stats p s
        = (rows.map (fun r =>
            if rowProject r = p ∧ rowStatus r = s then rowCountD r else 0)).sum) ∧
    (∀ p pr, projPriorityD stats p pr
        = (rows.map (fun r =>
            if rowProject r = p ∧ rowPriority r = pr then rowCountD r else 0)).sum) ∧
    (∀ p, (alGet stats p).isSome = true ↔ p ∈ rows.map rowProject) := by
  obtain ⟨h2, htot, hstat, hprio, hmem⟩ :=
    summaryLoop_spec rows ([], 0) (stats, total) h
  refine ⟨by simpa using h2, ?_, ?_, ?_, ?_⟩
  · intro p
    simpa [projTotalD, alGet] using htot p
  · intro p s
    simpa [projStatusD, alGet] using hstat p s
  · intro p pr
    simpa [projPriorityD, alGet] using hprio p pr
  · intro p
    simpa [alGet] using hmem p

/-- The spec's project-summary example rows, with counts as the string
values the warehouse API yields. -/
def c9Rows : List (List Value) :=
  [[Value.vStr "P1", Value.vStr "Open", Value.vStr "High", Value.vStr "3"],
   [Value.vStr "P1", Value.vStr "Closed", Value.vStr "Low", Value.vStr "2"]]

/-- The fold result on the example rows. -/
def c9Res : List (Value × ProjStat) × Int :=
  (summaryLoop ([], 0) c9Rows).getD ([], 0)

/-- Witness for C9 at the spec's example rows. -/
theorem project_summary_fold_witness :
    summaryLoop ([], 0) c9Rows = some (c9Res.1, c9Res.2) ∧
    c9Res.2 = 5 ∧
    projTotalD c9Res.1 (Value.vStr "P1") = 5 ∧
    projStatusD c9Res.1 (Value.vStr "P1") (Value.vStr "Open") = 3 ∧
    projStatusD c9Res.1 (Value.vStr "P1") (Value.vStr "Closed") = 2 ∧
    projPriorityD c9Res.1 (Value.vStr "P1") (Value.vStr "High") = 3 ∧
    projPriorityD c9Res.1 (Value.vStr "P1") (Value.vStr "Low") = 2 := by
  have h := project_summary_fold c9Rows c9Res.1 c9Res.2 rfl
  refine ⟨rfl, ?_, ?_, ?_, ?_, ?_, ?_⟩
  · rw [h.1]
    rfl
  · rw [h.2.1 (Value.vStr "P1")]
    rfl
  · rw [h.2.2.1 (Value.vStr "P1") (Value.vStr "Open")]
    rfl
  · rw [h.2.2.1 (Value.vStr "P1") (Value.vStr "Closed")]
    rfl
  · rw [h.2.2.2.1 (Value.vStr "P1") (Value.vStr "High")]
    rfl
  · rw [h.2.2.2.1 (Value.vStr "P1") (Value.vStr "Low")]
    rfl

theorem dgetOpt_zip (cols : List String) (row : List Value)
    (hlen : row.length = cols.length) (hnd : cols.Nodup) (i : Nat)
    (hi : i < cols.length) (hri : i < row.length) :
    alGet (cols.zip row) (cols.get ⟨i, hi⟩) = some (row.get ⟨i, hri⟩) := by
  induction cols generalizing row i with
  | nil => exact absurd hi (by simp)
  | cons c0 cs ih =>
    cases row with
    | nil => simp at hlen
    | cons v0 vs =>
      cases i with
      | zero => simp [List.zip, alGet]
      | succ j =>
        have hj : j < cs.length := by simpa using hi
        have hjr : j < vs.length := by simpa using hri
        have hc0 : c0 ≠ cs.get ⟨j, hj⟩ := by
          intro he
          exact (List.nodup_cons.mp hnd).1 (he ▸ List.get_mem cs j hj)
        have hlen2 : vs.length = cs.length := by simpa using hlen
        have hnd2 : cs.Nodup := (List.nodup_cons.mp hnd).2
        simp only [List.zip_cons_cons, List.get_cons_succ]
        rw [alGet, if_neg hc0]
        exact ih vs hlen2 hnd2 j hj hjr

/-- C10: `format_snowflake_row` returns the empty dict whenever the row's
value count differs from the declared column count, and otherwise maps
each declared column name to the value at its position; consequently the
list aggregation skips such a mismatched row without change (its id
lookup yields nothing) instead of corrupting or aborting the batch. -/
theorem format_row_mismatch :
    (∀ (row : List Value) (cols : List String), row.length ≠ cols.length →
      format_snowflake_row row cols = []) ∧
    (∀ (row : List Value) (cols : List String), row.length = cols.length →
      cols.Nodup → ∀ (i : Nat) (hi : i < cols.length) (hri : i < row.length),
        dgetOpt (format_snowflake_row row cols) (cols.get ⟨i, hi⟩)
          = some (row.get ⟨i, hri⟩)) ∧
    (∀ (row : List Value) (st : AggState), row.length ≠ listColumns.length →
      aggStep st row = some st) := by
  refine ⟨?_, ?_, ?_⟩
  · intro row cols h
    rw [format_snowflake_row, if_neg h]
  · intro row cols hlen hnd i hi hri
    rw [dgetOpt, format_snowflake_row, if_pos hlen]
    exact dgetOpt_zip cols row hlen hnd i hi hri
  · intro row st h
    have h0 : format_snowflake_row row listColumns = [] := by
      rw [format_snowflake_row, if_neg h]
    simp [aggStep, h0, dgetOpt, alGet]

/-- Witness for C10 at concrete mismatched and matched rows. -/
theorem format_row_mismatch_witness :
    (([Value.vNull] : List Value).length ≠ (["A", "B"] : List String).length) ∧
    format_snowflake_row [Value.vNull] ["A", "B"] = [] ∧
    aggStep initAggState [Value.vNull] = some initAggState ∧
    dgetOpt (format_snowflake_row [Value.vNull, Value.vInt 3] ["A", "B"])
      (List.get (["A", "B"] : List String) ⟨1, by norm_num⟩) = some (Value.vInt 3) :=
  ⟨by decide,
   format_row_mismatch.1 [Value.vNull] ["A", "B"] (by decide),
   format_row_mismatch.2.2 [Value.vNull] initAggState (by decide),
   format_row_mismatch.2.1 [Value.vNull, Value.vInt 3] ["A", "B"] (by decide)
     (by decide) 1 (by decide) (by decide)⟩
